import Mathlib

/-!
Verification of the per-instrument technical-analysis pipeline of this
repository (feature derivation, extrema detection, pattern recognition,
regime clustering, per-symbol analysis and the batch orchestrator) against
its natural-language specification.  The Python source is shallowly
embedded: prices are rationals, pandas NaN cells are `Option` values,
Python exceptions are `Except`, and every definition follows the
corresponding source function line by line (file
`teset_athena_k_market_ai_only_pattern_delete_1_... .py`, with
`athena_k_market_ai_prod.py` for the duplicated functions cited there).
-/

unseal Rat.add Rat.mul Rat.inv Rat.sub

set_option maxRecDepth 40000

/-- Status strings produced by the pattern detectors
(the literals `Breakout`, `Potential`, `None`). -/
inductive PatternStatus
  | breakout
  | potential
  | nonePat
deriving DecidableEq

/-- The 4-tuple `(matched, neckline, status, neckline_price)` returned by each
pattern detector; `none` models Python `None`. -/
structure PatternVerdict where
  matched : Bool
  neckline : Option ℚ
  status : Option PatternStatus
  necklinePrice : Option ℚ
deriving DecidableEq

/-- The all-`None` tuple `(False, None, None, None)` returned when a
detector's preconditions fail. -/
def noVerdict : PatternVerdict := ⟨false, none, none, none⟩

/-- Sum of a list of rationals (`pandas Series.sum`; the bracketing of the
additions is irrelevant over `ℚ`). -/
def listSum : List ℚ → ℚ
  | [] => 0
  | x :: t => x + listSum t

/-- Mean of a list of rationals (`pandas Series.mean`); the empty case is
never reached by callers (they return early on empty windows). -/
def listMean (l : List ℚ) : ℚ := listSum l / (l.length : ℚ)

/-- Sample variance with the pandas default `ddof=1`
(`Series.std` squared).  For a single-element window pandas yields NaN;
that case is irrelevant here because a window of length `< 3` has no
interior local extrema, so the threshold built from it selects nothing
either way. -/
def sampleVar (l : List ℚ) : ℚ :=
  listSum (l.map (fun v => (v - listMean l) ^ 2)) / ((l.length : ℚ) - 1)

/-- Maximum of a list (`Series.max`): the first element that every element
is `≤` (which exists for a non-empty list); defaults to `0` on the empty
list, which callers guard against. -/
def listMaxD (l : List ℚ) : ℚ :=
  match l.find? (fun v => l.all (fun w => decide (w ≤ v))) with
  | some v => v
  | none => 0

/-- Minimum of a list (`Series.min` / the running minimum of a scan): the
first element that is `≤` every element; `0` on the empty list. -/
def listMinD (l : List ℚ) : ℚ :=
  match l.find? (fun v => l.all (fun w => decide (v ≤ w))) with
  | some v => v
  | none => 0

/-- Position of the first minimal element of a list (`l.length` when the
list is empty). -/
def listMinPosD (l : List ℚ) : Nat :=
  l.findIdx (fun v => l.all (fun w => decide (v ≤ w)))

/-- The pandas slice `iloc[a:b]` (half-open). -/
def closeSlice (close : List ℚ) (a b : Nat) : List ℚ :=
  (close.drop a).take (b - a)

/-- `[t for t in idxs if t >= len(df) - 250]` — the indices inside the
most recent 250-bar window (Python integer arithmetic, hence `ℤ`). -/
def recentIdxs (n : Nat) (idxs : List Nat) : List Nat :=
  idxs.filter (fun t => decide ((n : ℤ) - 250 ≤ (t : ℤ)))

/-- `tolerance=0.05` default of `find_double_bottom` / `find_triple_bottom`. -/
def db_tolerance : ℚ := 5 / 100

/-- `min_duration=30` default of `find_double_bottom`. -/
def db_min_duration : ℤ := 30

/-- `min_retrace=0.1` default of the double/triple bottom detectors. -/
def db_min_retrace : ℚ := 1 / 10

/-- `min_duration_total=75` default of `find_triple_bottom`. -/
def tb_min_duration_total : ℤ := 75

/-- `handle_drop_ratio=0.3` default of `find_cup_and_handle`. -/
def ch_handle_drop : ℚ := 3 / 10

/-- `find_double_bottom(df, troughs)` with its default keyword arguments,
exactly as called by `check_ma_conditions`.  Indices supplied by
`find_peaks_and_troughs` are always in range; out-of-range reads are
modelled by `getD` defaults (in Python they would raise and be caught by
`analyze_symbol`). -/
def find_double_bottom (close : List ℚ) (troughs : List Nat) : PatternVerdict :=
  let rt := recentIdxs close.length troughs
  if rt.length < 2 then noVerdict else
  let idx2 := rt.getLastD 0
  let idx1 := rt.getD (rt.length - 2) 0
  let price1 := close.getD idx1 0
  let price2 := close.getD idx2 0
  if (idx2 : ℤ) - (idx1 : ℤ) < db_min_duration then noVerdict else
  let min_price := min price1 price2
  let max_price := max price1 price2
  if ¬ ((max_price - min_price) / min_price < db_tolerance) then noVerdict else
  let neckline := listMaxD (closeSlice close idx1 idx2)
  if (neckline - min_price) / min_price < db_min_retrace then noVerdict else
  let current := close.getLastD 0
  if neckline < current then ⟨true, some neckline, some .breakout, some neckline⟩ else
  let retrace_ratio :=
    if min_price < neckline then (current - min_price) / (neckline - min_price) else 0
  if 1 / 2 < retrace_ratio ∧ current < neckline then
    ⟨false, some neckline, some .potential, some neckline⟩
  else ⟨false, some neckline, some .nonePat, some neckline⟩

/-- `find_triple_bottom(df, troughs)` with its default keyword arguments. -/
def find_triple_bottom (close : List ℚ) (troughs : List Nat) : PatternVerdict :=
  let rt := recentIdxs close.length troughs
  if rt.length < 3 then noVerdict else
  let idx3 := rt.getLastD 0
  let idx2 := rt.getD (rt.length - 2) 0
  let idx1 := rt.getD (rt.length - 3) 0
  let price1 := close.getD idx1 0
  let price2 := close.getD idx2 0
  let price3 := close.getD idx3 0
  if (idx3 : ℤ) - (idx1 : ℤ) < tb_min_duration_total then noVerdict else
  let min_price := min price1 (min price2 price3)
  let max_price := max price1 (max price2 price3)
  if ¬ ((max_price - min_price) / min_price < db_tolerance) then noVerdict else
  let high1 := listMaxD (closeSlice close idx1 idx2)
  let high2 := listMaxD (closeSlice close idx2 idx3)
  let neckline := max high1 high2
  if (neckline - min_price) / min_price < db_min_retrace then noVerdict else
  let current := close.getLastD 0
  if neckline < current then ⟨true, some neckline, some .breakout, some neckline⟩ else
  let retrace_ratio :=
    if min_price < neckline then (current - min_price) / (neckline - min_price) else 0
  if 1 / 2 < retrace_ratio ∧ current < neckline then
    ⟨false, some neckline, some .potential, some neckline⟩
  else ⟨false, some neckline, some .nonePat, some neckline⟩

/-- `find_cup_and_handle(df, peaks, troughs)` with its default keyword
argument (`troughs` is accepted and unused, as in the source).  The handle
window `iloc[handle_start_idx:]` runs to the end of the series and hence
contains the current bar. -/
def find_cup_and_handle (close : List ℚ) (peaks : List Nat) (_troughs : List Nat) :
    PatternVerdict :=
  let rp := recentIdxs close.length peaks
  if rp.length < 2 then noVerdict else
  let peak_right_idx := rp.getLastD 0
  let peak_right_price := close.getD peak_right_idx 0
  let handle_max_drop := peak_right_price * (1 - ch_handle_drop)
  let current := close.getLastD 0
  let neckline := peak_right_price
  let is_handle_forming :=
    listMaxD (close.drop peak_right_idx) ≤ peak_right_price ∧ handle_max_drop < current
  if is_handle_forming ∧ neckline < current then
    ⟨true, some neckline, some .breakout, some neckline⟩
  else if is_handle_forming ∧ current ≤ neckline then
    ⟨false, some neckline, some .potential, some neckline⟩
  else ⟨false, some neckline, some .nonePat, some neckline⟩




/-!
Model of `scipy.signal.find_peaks(x, prominence=v, width=w)` as called by
`find_peaks_and_troughs`: local maxima (`_local_maxima_1d`), prominences
with unrestricted `wlen` (`_peak_prominences`), and interpolated widths at
the default `rel_height=0.5` (`_peak_widths`), keeping the peaks with
prominence `≥ v` and then width `≥ w`.
-/

/-- Inner plateau loop of `_local_maxima_1d`: starting at `i`, advance while
`i < imax` and `x[i]` equals the candidate value `v`; returns the first
index past the plateau.  `fuel` dominates the number of steps. -/
def plateauScan (x : List ℚ) (imax : Nat) (v : ℚ) : Nat → Nat → Nat
  | 0, i => i
  | fuel + 1, i =>
    if i < imax ∧ x.getD i 0 = v then plateauScan x imax v fuel (i + 1) else i

/-- Main loop of `_local_maxima_1d` over `1 ≤ i < imax` (`imax = n - 1`,
borders excluded): a sample strictly above its left neighbour starts a
candidate plateau; if the sample after the plateau is strictly below it,
the plateau midpoint `(left + right) // 2` is a local maximum. -/
def localMaximaAux (x : List ℚ) (imax : Nat) : Nat → Nat → List Nat
  | 0, _ => []
  | fuel + 1, i =>
    if i < imax then
      if x.getD (i - 1) 0 < x.getD i 0 then
        let ia := plateauScan x imax (x.getD i 0) x.length (i + 1)
        if x.getD ia 0 < x.getD i 0 then
          (i + ia - 1) / 2 :: localMaximaAux x imax fuel (ia + 1)
        else localMaximaAux x imax fuel (i + 1)
      else localMaximaAux x imax fuel (i + 1)
    else []

/-- All local maxima of `x`, scipy `_local_maxima_1d`. -/
def localMaxima (x : List ℚ) : List Nat :=
  localMaximaAux x (x.length - 1) x.length 1

/-- The samples visited by the left loop of `_peak_prominences`: starting
at the peak and walking left, `[x[p], x[p-1], ...]` while the sample stays
`≤ x[peak]` (the walk stops at a strictly higher sample or the border). -/
def leftRun (x : List ℚ) (p : Nat) : List ℚ :=
  ((x.take (p + 1)).reverse).takeWhile (fun v => decide (v ≤ x.getD p 0))

/-- The samples visited by the right loop of `_peak_prominences`:
`[x[p], x[p+1], ...]` while the sample stays `≤ x[peak]` or until the
right border. -/
def rightRun (x : List ℚ) (p : Nat) : List ℚ :=
  (x.drop p).takeWhile (fun v => decide (v ≤ x.getD p 0))

/-- `(left_min, left_base)` for a peak: the run minimum, and its base.
The source updates the base only on a strict decrease while scanning
leftward, so the base is the first position of the run (scanned from the
peak) attaining the minimum. -/
def leftScan (x : List ℚ) (p : Nat) : ℚ × Nat :=
  (listMinD (leftRun x p), p - listMinPosD (leftRun x p))

/-- `(right_min, right_base)` for a peak: scanning rightward, the base is
again the first position of the run attaining the minimum. -/
def rightScan (x : List ℚ) (p : Nat) : ℚ × Nat :=
  (listMinD (rightRun x p), p + listMinPosD (rightRun x p))

/-- Prominence of a peak: `x[peak] - max(left_min, right_min)`. -/
def prominenceOf (x : List ℚ) (p : Nat) : ℚ :=
  x.getD p 0 - max (leftScan x p).1 (rightScan x p).1

/-- Number of steps of the left loop of `_peak_widths`: starting at the
peak, decrement while `left_base < i` and `width_height < x[i]`; the
visited samples are `[x[p], ..., x[lb+1]]`. -/
def widthLeftSteps (x : List ℚ) (lb : Nat) (h : ℚ) (p : Nat) : Nat :=
  ((((x.take (p + 1)).reverse).take (p - lb)).takeWhile (fun v => decide (h < v))).length

/-- Number of steps of the right loop of `_peak_widths`: increment while
`i < right_base` and `width_height < x[i]`. -/
def widthRightSteps (x : List ℚ) (rb : Nat) (h : ℚ) (p : Nat) : Nat :=
  (((x.drop p).take (rb - p)).takeWhile (fun v => decide (h < v))).length

/-- Interpolated width of a peak at `rel_height=0.5`
(`right_ip - left_ip` of `_peak_widths`). -/
def widthOf (x : List ℚ) (p : Nat) : ℚ :=
  let h := x.getD p 0 - prominenceOf x p * (1 / 2)
  let li := p - widthLeftSteps x (leftScan x p).2 h p
  let left_ip : ℚ :=
    if x.getD li 0 < h then
      (li : ℚ) + (h - x.getD li 0) / (x.getD (li + 1) 0 - x.getD li 0)
    else (li : ℚ)
  let ri := p + widthRightSteps x (rightScan x p).2 h p
  let right_ip : ℚ :=
    if x.getD ri 0 < h then
      (ri : ℚ) - (h - x.getD ri 0) / (x.getD (ri - 1) 0 - x.getD ri 0)
    else (ri : ℚ)
  right_ip - left_ip

/-- `scipy.signal.find_peaks(x, prominence=promMin, width=wmin)`:
local maxima filtered by prominence, then by width. -/
def scipyFindPeaks (x : List ℚ) (promMin : ℚ) (wmin : ℚ) : List Nat :=
  ((localMaxima x).filter (fun p => decide (promMin ≤ prominenceOf x p))).filter
    (fun p => decide (wmin ≤ widthOf x p))

/-- Variant of `scipyFindPeaks` whose prominence cut is stated on squares:
used with `promSqMin = var · ratio²` it is the comparison
`prom ≥ √var · ratio` in rational-computable form (both sides are
nonnegative; see `scipyFindPeaksSq_eq_withStd`). -/
def scipyFindPeaksSq (x : List ℚ) (promSqMin : ℚ) (wmin : ℚ) : List Nat :=
  ((localMaxima x).filter (fun p => decide (promSqMin ≤ (prominenceOf x p) ^ 2))).filter
    (fun p => decide (wmin ≤ widthOf x p))

/-- `prominence_ratio=0.005` default of `find_peaks_and_troughs`. -/
def prominence_scale : ℚ := 5 / 1000

/-- `width=3` default of `find_peaks_and_troughs`. -/
def min_peak_width : ℚ := 3

/-- `find_peaks_and_troughs(df)`: the most recent 250-bar window, the
prominence threshold `std × 0.005` (prominences compared against it in the
equivalent squared form `prom² ≥ var × 0.005²`), peaks on the closes and
troughs on the negated closes with minimum width 3, indices translated by
`start_idx = len(df) - len(recent)`. -/
def find_peaks_and_troughs (close : List ℚ) : List Nat × List Nat :=
  let recent := close.drop (close.length - 250)
  if recent.isEmpty then ([], []) else
  let promSq := sampleVar recent * prominence_scale ^ 2
  let start_idx := close.length - recent.length
  ((scipyFindPeaksSq recent promSq min_peak_width).map (fun p => p + start_idx),
   (scipyFindPeaksSq (recent.map (fun v => -v)) promSq min_peak_width).map
     (fun p => p + start_idx))

/-- `find_peaks_and_troughs` written with the source's literal threshold
`std_dev * prominence_ratio`, the standard deviation `std` (the square
root of `sampleVar`, an irrational number in general) being passed as a
parameter.  `find_peaks_and_troughs_eq_withStd` below proves it equal to
the executable `find_peaks_and_troughs`. -/
def find_peaks_and_troughs_withStd (close : List ℚ) (std : ℚ) : List Nat × List Nat :=
  let recent := close.drop (close.length - 250)
  if recent.isEmpty then ([], []) else
  let prominence_val := std * prominence_scale
  let start_idx := close.length - recent.length
  ((scipyFindPeaks recent prominence_val min_peak_width).map (fun p => p + start_idx),
   (scipyFindPeaks (recent.map (fun v => -v)) prominence_val min_peak_width).map
     (fun p => p + start_idx))

/-- Modelled from the spec: an extrema detector whose prominence threshold
is "the larger of (std-dev × ratio) and (mean price × a small fixed
fraction)", the fraction being the `0.005` of the sibling source variant
`athena_k_market_ai.py`.  Stated on squares like `find_peaks_and_troughs`
(valid since the mean price of the concrete windows it is compared on is
nonnegative). -/
def find_peaks_and_troughs_specThreshold (close : List ℚ) : List Nat × List Nat :=
  let recent := close.drop (close.length - 250)
  if recent.isEmpty then ([], []) else
  let promSq :=
    max (sampleVar recent * prominence_scale ^ 2) ((listMean recent * (5 / 1000)) ^ 2)
  let start_idx := close.length - recent.length
  ((scipyFindPeaksSq recent promSq min_peak_width).map (fun p => p + start_idx),
   (scipyFindPeaksSq (recent.map (fun v => -v)) promSq min_peak_width).map
     (fun p => p + start_idx))

/-!
`calculate_advanced_features`: each indicator column is produced by the
`ta` library with `fillna=False`, i.e. with `min_periods` equal to the
window, so a column is NaN exactly on the rows before its first valid
index.  The function ends with
`df.dropna(subset=['RSI','MACD','BB_Width','TREND_CROSS','SMA_200','Log_Return'])`,
so the retained (usable) rows are fully determined by those first valid
indices; we embed that row-retention behaviour.
-/

/-- First valid row (0-based) of `RSIIndicator(window=14, fillna=False)`:
the close diff is NaN at row 0 and the smoothing means use
`min_periods=14`, so the 14 diffs at rows 1..14 make row 14 the first
valid one. -/
def rsiFirstValid : Nat := 14

/-- First valid row of `MACD(fillna=False).macd()`: the slow EMA uses
`span=26, min_periods=26`, so row 25 is the first valid one. -/
def macdFirstValid : Nat := 25

/-- First valid row of `BollingerBands(window=20).bollinger_wband()`. -/
def bbwFirstValid : Nat := 19

/-- First valid row of `SMAIndicator(window=w, fillna=False)`. -/
def smaFirstValid (w : Nat) : Nat := w - 1

/-- First valid row of `Log_Return = log(Close / Close.shift(1))`. -/
def logReturnFirstValid : Nat := 1

/-- Rows of an `n`-bar frame kept by the `dropna(subset=feature_subset)` of
`calculate_advanced_features`.  `TREND_CROSS = (SMA_50 > SMA_200).astype(int)`
is 0/1 on every row (a NaN comparison is False), so it never drops a row
and does not appear in the predicate. -/
def calculate_advanced_features_rows (n : Nat) : List Nat :=
  (List.range n).filter (fun i =>
    decide (rsiFirstValid ≤ i) && decide (macdFirstValid ≤ i) &&
    decide (bbwFirstValid ≤ i) && decide (smaFirstValid 200 ≤ i) &&
    decide (logReturnFirstValid ≤ i))

/-- Modelled from the spec: a feature derivation that excludes "only those
rows missing the oscillator (RSI), the trend-convergence value (MACD), or
the shortest moving average" (the 20-bar one). -/
def deriveFeatures_rows_spec (n : Nat) : List Nat :=
  (List.range n).filter (fun i =>
    decide (rsiFirstValid ≤ i) && decide (macdFirstValid ≤ i) &&
    decide (smaFirstValid 20 ≤ i))

/-- `min_data_length = 200` of `add_market_regime_clustering`. -/
def regime_min_data_length : Nat := 200

/-- `add_market_regime_clustering(df_full, n_clusters=4)`.  `rows` is the
feature matrix `df_full[['RSI','MACD','BB_Width','TREND_CROSS','Log_Return']]`,
`hasFeatureCols` the `all(col in df_full.columns ...)` test, and
`fitPredict` abstracts the external
`KMeans(n_clusters, random_state=42, n_init=10).fit_predict(StandardScaler().fit_transform(data))`
call, which by the scikit-learn contract returns one label in `[0, k)` per
sample or raises `ValueError` (caught by the source, which then assigns
the sentinel).  `data.drop_duplicates().shape[0]` is `rows.dedup.length`.
The result is the `MarketRegime` label assigned to each row. -/
def add_market_regime_clustering
    (fitPredict : List (List ℚ) → Except Unit (List Nat))
    (hasFeatureCols : Bool) (rows : List (List ℚ)) (n_clusters : Nat) : List ℤ :=
  if rows.length < regime_min_data_length ∨ hasFeatureCols = false then
    rows.map (fun _ => -1)
  else if rows.dedup.length < n_clusters then rows.map (fun _ => -1)
  else
    match fitPredict rows with
    | .ok ls => ls.map (fun (l : Nat) => (l : ℤ))
    | .error _ => rows.map (fun _ => -1)

/-!
`check_ma_conditions(df, periods, analyze_patterns)` — the moving-average
comparisons.  The frame is the analysis slice: its close column, the three
`SMA_p` columns that `calculate_advanced_features` may have produced
(column present or not, and per-row values with `none` for NaN).
-/

/-- A data frame as seen by `check_ma_conditions`. -/
structure AnalyzeFrame where
  close : List ℚ
  sma20 : Option (List (Option ℚ))
  sma50 : Option (List (Option ℚ))
  sma200 : Option (List (Option ℚ))

/-- `ma_cols = {20:'SMA_20', 50:'SMA_50', 200:'SMA_200'}` and
`ma_cols.get(p)`; the column is identified by its window. -/
def ma_cols_get (p : Nat) : Option Nat :=
  if p = 20 then some 20 else if p = 50 then some 50 else if p = 200 then some 200 else none

/-- `df[col]` lookup for the three SMA columns (`none` when the column is
absent from the frame). -/
def frameCol (df : AnalyzeFrame) (c : Nat) : Option (List (Option ℚ)) :=
  if c = 20 then df.sma20 else if c = 50 then df.sma50 else if c = 200 then df.sma200
  else none

/-- The `above_ma{p}` entry of `check_ma_conditions`:
`df['Close'].iloc[-1] > df[col].iloc[-1]` when `ma_cols.get(p)` is a known
column present in the frame and the frame is non-empty, `False` otherwise;
a NaN moving-average value also compares as `False`, as in pandas. -/
def above_ma (df : AnalyzeFrame) (p : Nat) : Bool :=
  match ma_cols_get p with
  | none => false
  | some c =>
    match frameCol df c with
    | none => false
    | some col =>
      if df.close.isEmpty then false
      else
        match col.getLastD none with
        | none => false
        | some v => decide (v < df.close.getLastD 0)

/-!
`analyze_symbol(item, periods, analyze_patterns, pattern_type_filter)` and
the batch logic of `run_analysis`.  Everything from `pd.read_parquet`
to the final `return` sits inside one `try: ... except Exception: return
None`; the fallible collaborators (parquet loading, the `ta`-backed
feature engineering, clustering, the condition analysis) are injected as
`Except`-valued phases, and the guard structure is the source's.
-/

/-- An opaque Python exception. -/
structure PyExn where
  msg : String
deriving DecidableEq

/-- A listing entry: `item.get("Code") or item.get("code")` and the same
for the name (absent keys give Python `None`). -/
structure InstrumentItem where
  code : Option String
  name : Option String
deriving DecidableEq

/-- A pandas frame as passed between the pipeline phases; only its row
count and the last-row `MarketRegime` label steer the control flow
modelled here. -/
structure PipeFrame where
  nrows : Nat
  marketRegime : ℤ
deriving DecidableEq

/-- The flat outcome map assembled by `check_ma_conditions`, restricted to
the entries the filter logic reads. -/
structure AnalysisOutcome where
  aboveMa : Nat → Bool
  belowMa : Nat → Bool
  goldencross : Bool
  deadcross : Bool
  dbStatus : Option PatternStatus
  tbStatus : Option PatternStatus
  chStatus : Option PatternStatus
  market_regime : ℤ

/-- The `pattern_type_filter` argument: the closed filter enumeration of
the command surface.  `regimeBad` stands for a `regime:` string whose
number fails `int(...)` (the caught `ValueError`), `unknown` for any other
string, and `noFilter` for the empty/absent filter. -/
inductive FilterKind
  | noFilter
  | goldencross
  | deadcross
  | double_bottom
  | triple_bottom
  | cup_and_handle
  | regime (n : ℤ)
  | regimeBad
  | ma
  | all_below_ma
  | unknown
deriving DecidableEq

/-- The `is_match` computation of `analyze_symbol` for a present filter. -/
def filterMatch (f : FilterKind) (r : AnalysisOutcome) (periods : List Nat) : Bool :=
  match f with
  | .noFilter => true
  | .goldencross => r.goldencross
  | .deadcross => r.deadcross
  | .double_bottom => r.dbStatus = some .breakout ∨ r.dbStatus = some .potential
  | .triple_bottom => r.tbStatus = some .breakout ∨ r.tbStatus = some .potential
  | .cup_and_handle => r.chStatus = some .breakout ∨ r.chStatus = some .potential
  | .regime n => r.market_regime = n
  | .regimeBad => false
  | .ma => periods.all (fun p => r.aboveMa p)
  | .all_below_ma => (periods.filter (fun p => p = 20 ∨ p = 50 ∨ p = 200)).all
      (fun p => r.belowMa p)
  | .unknown => false

/-- The fallible collaborators of one `analyze_symbol` call: file
existence, `pd.read_parquet` (+ index fixup), `calculate_advanced_features`,
`add_market_regime_clustering`, and `check_ma_conditions`; each may raise. -/
structure SymbolEnv where
  pathExists : Bool
  readParquet : Except PyExn PipeFrame
  features : PipeFrame → Except PyExn PipeFrame
  clustering : PipeFrame → Except PyExn PipeFrame
  conditions : PipeFrame → Except PyExn AnalysisOutcome

/-- `df_full.iloc[-250:]`. -/
def sliceLast250 (f : PipeFrame) : PipeFrame :=
  { f with nrows := min f.nrows 250 }

/-- The per-instrument result dictionary built at the end of
`analyze_symbol` (the `technical_conditions` payload is carried along with
the `sort_score`, which is the market-regime label). -/
structure InstrumentResult where
  ticker : Option String
  name : Option String
  conds : AnalysisOutcome
  sort_score : ℤ

/-- The body of the `try:` block of `analyze_symbol`: any phase may raise
(`.error`), `return None` inside the block is `.ok none`. -/
def analyze_symbol_try (env : SymbolEnv) (item : InstrumentItem) (periods : List Nat)
    (f : FilterKind) : Except PyExn (Option InstrumentResult) := do
  let df_raw ← env.readParquet
  if df_raw.nrows = 0 ∨ df_raw.nrows < 250 then return none
  let df_full ← env.features df_raw
  let df_full2 ← env.clustering df_full
  let df_analyze := sliceLast250 df_full2
  if df_analyze.nrows < 200 then return none
  let results ← env.conditions df_analyze
  let is_match := if f = .noFilter then true else filterMatch f results periods
  if f ≠ .noFilter ∧ is_match = false then return none
  return some ⟨item.code, item.name, results, results.market_regime⟩

/-- `analyze_symbol`: the file-existence guard sits outside the `try`, and
the `except Exception` handler converts any raised phase into `None`. -/
def analyze_symbol (env : SymbolEnv) (item : InstrumentItem) (periods : List Nat)
    (f : FilterKind) : Option InstrumentResult :=
  if env.pathExists = false then none
  else
    match analyze_symbol_try env item periods f with
    | .ok r => r
    | .error _ => none

/-- The collection phase of `run_analysis`: one `analyze_symbol` task per
item, appending the non-`None` results.  The thread pool's completion
order is nondeterministic; the accumulated *set* of results is
order-independent, and the properties proved below (lengths, membership,
sortedness after ranking) do not depend on the arrival order, so the model
collects in submission order. -/
def run_analysis_collect (env : InstrumentItem → SymbolEnv) (items : List InstrumentItem)
    (periods : List Nat) (f : FilterKind) : List InstrumentResult :=
  items.filterMap (fun it => analyze_symbol (env it) it periods f)

/-- A result after `r.pop('sort_score', None)`: the ranking field is gone. -/
structure RankedResult where
  ticker : Option String
  name : Option String
  conds : AnalysisOutcome

/-- Removing the internal `sort_score` key from a result. -/
def stripScore (r : InstrumentResult) : RankedResult := ⟨r.ticker, r.name, r.conds⟩

/-- `results.sort(key=lambda x: x.get('sort_score', -1), reverse=True)`:
a stable sort, descending by ranking score. -/
def sortByScoreDesc (results : List InstrumentResult) : List InstrumentResult :=
  List.insertionSort (fun a b => b.sort_score ≤ a.sort_score) results

/-- The ranking phase of `run_analysis`: sort descending by `sort_score`,
truncate with `results[:top_n]` when `top_n > 0` (any `top_n ≤ 0` keeps
everything), then pop `sort_score` from every returned result. -/
def run_analysis_rank (results : List InstrumentResult) (top_n : ℤ) : List RankedResult :=
  let sorted := sortByScoreDesc results
  let final := if 0 < top_n then sorted.take top_n.toNat else sorted
  final.map stripScore

/-!
The listing provider (`load_listing`) and the universe check of the
production `run_analysis`.
-/

/-- The states the listing file can be in. -/
inductive ListingSource
  | missing
  | unparseable
  | parsed (items : List InstrumentItem)
deriving DecidableEq

/-- The `default_item = [{"Code": "005930", "Name": "삼성전자"}]` fallback. -/
def default_listing_item : InstrumentItem := ⟨some "005930", some "삼성전자"⟩

/-- `load_listing()`: a missing file and a `json.load` failure both fall
back to the built-in one-element default list; a parsed file yields its
contents. -/
def load_listing : ListingSource → List InstrumentItem
  | .missing => [default_listing_item]
  | .unparseable => [default_listing_item]
  | .parsed items => items

/-- The batch-level errors of the production `run_analysis`. -/
inductive BatchError
  | listingDataEmpty
  | symbolNotFound
deriving DecidableEq

/-- The universe-acquisition prefix of the production `run_analysis`
(whole-universe mode): load the listing and fail with `LISTING_DATA_EMPTY`
only when the loaded item list is empty; otherwise the returned items are
dispatched to `analyze_symbol` workers. -/
def run_analysis_universe (src : ListingSource) : Except BatchError (List InstrumentItem) :=
  let items := load_listing src
  if items.length = 0 then .error .listingDataEmpty else .ok items

/-!
Concrete inputs used by the counterexamples and witnesses below.
-/

/-- A short series with a single peak at index 1. -/
def closeOnePeak : List ℚ := [100, 110, 100]

/-- A series with two peaks (indices 1 and 3) whose final close 120
exceeds the most recent peak's price 108. -/
def closeAbovePeak : List ℚ := [100, 110, 100, 108, 100, 120]

/-- A 41-bar series: equal troughs at indices 0 and 40 (price 100) and an
interim high of 115; the final close is back at 100, so the double-bottom
detector lands in its `'None'` branch. -/
def closeDBNone : List ℚ := 100 :: (List.replicate 39 115 ++ [100])

/-- An 81-bar series with equal troughs at indices 0, 40, 80 and interim
highs of 115; triple-bottom `'None'` branch. -/
def closeTBNone : List ℚ :=
  100 :: (List.replicate 39 115 ++ ([100] ++ (List.replicate 39 115 ++ [100])))

/-- A declining series with peaks at 0 and 1; the final close 50 is deeper
than the 30% handle drawdown of the peak price 90, so the cup-and-handle
detector lands in its `'None'` branch. -/
def closeCHNone : List ℚ := [100, 90, 80, 50]

/-- Equal troughs at 0 and 40 but an interim high of only 105 — a 5%
rebound, below the 10% `min_retrace` floor. -/
def closeDBLowRetrace : List ℚ := 100 :: (List.replicate 39 105 ++ [100])

/-- Equal troughs at 0, 40, 80 with interim highs of 105 — below the 10%
`min_retrace` floor of the triple-bottom detector. -/
def closeTBLowRetrace : List ℚ :=
  100 :: (List.replicate 39 105 ++ ([100] ++ (List.replicate 39 105 ++ [100])))

/-- A 250-bar near-flat window around price 1000 with one gentle 7-bar
bump peaking at 1004 (prominence 4, interpolated width 4).  Its standard
deviation is ≈ 0.42, so the source threshold `std × 0.005` keeps the
peak, while `mean × 0.005 ≈ 5.0` would reject it. -/
def closeFlatBump : List ℚ :=
  List.replicate 121 1000 ++
    ([1001, 1002, 1003, 1004, 1003, 1002, 1001] ++ List.replicate 122 1000)

/-- A 250-bar window with mean 100 and sample variance exactly 4
(deviations 28, −12, −5, −5, −3, −3), i.e. a rational standard deviation
of 2 — a window on which `find_peaks_and_troughs_withStd` can be
instantiated exactly. -/
def closeRationalStd : List ℚ := List.replicate 244 100 ++ [128, 88, 95, 95, 97, 97]

/-- An outcome map with nothing set, used to build concrete environments. -/
def emptyOutcome : AnalysisOutcome :=
  ⟨fun _ => false, fun _ => false, false, false, none, none, none, -1⟩

/-- An environment whose parquet load raises. -/
def envLoadFails : SymbolEnv :=
  ⟨true, .error ⟨"read_parquet failed"⟩, fun fr => .ok fr, fun fr => .ok fr,
   fun _ => .ok emptyOutcome⟩

/-- A concrete instrument item. -/
def itemW : InstrumentItem := ⟨some "000001", some "w"⟩

/-- Concrete instrument results with ranking scores 1, 3, 2. -/
def resultScore1 : InstrumentResult := ⟨some "a", none, emptyOutcome, 1⟩

/-- Score-3 result. -/
def resultScore3 : InstrumentResult := ⟨some "b", none, emptyOutcome, 3⟩

/-- Score-2 result. -/
def resultScore2 : InstrumentResult := ⟨some "c", none, emptyOutcome, 2⟩

/-- 200 pairwise-distinct single-column feature rows. -/
def rows200 : List (List ℚ) := (List.range 200).map (fun (i : Nat) => [(i : ℚ)])

/-- A clustering collaborator that labels every sample 0. -/
def fitPredictZero : List (List ℚ) → Except Unit (List Nat) :=
  fun rows => .ok (rows.map (fun _ => 0))

/-- A one-row frame whose moving averages sit below the close. -/
def frameW : AnalyzeFrame := ⟨[100], some [some 90], some [some 90], some [some 90]⟩

/-- The descending-by-score relation used by the ranking sort is total. -/
instance instScoreDescTotal :
    IsTotal InstrumentResult (fun a b => b.sort_score ≤ a.sort_score) :=
  ⟨fun a b => (le_total a.sort_score b.sort_score).symm⟩

/-- The descending-by-score relation used by the ranking sort is
transitive. -/
instance instScoreDescTrans :
    IsTrans InstrumentResult (fun a b => b.sort_score ≤ a.sort_score) :=
  ⟨fun _ _ _ hab hbc => le_trans hbc hab⟩


/-!
Helper lemmas.
-/

/-- Every non-empty list of rationals has a first minimal element. -/
theorem exists_all_le (l : List ℚ) (hl : l ≠ []) : ∃ v ∈ l, ∀ w ∈ l, v ≤ w := by
  induction l with
  | nil => exact absurd rfl hl
  | cons a t ih =>
    cases t with
    | nil => exact ⟨a, List.mem_singleton_self a, by simp⟩
    | cons b u =>
      obtain ⟨v, hv, hmin⟩ := ih (List.cons_ne_nil b u)
      by_cases hav : a ≤ v
      · refine ⟨a, List.mem_cons_self a _, ?_⟩
        intro w hw
        rcases List.mem_cons.mp hw with rfl | hw
        · exact le_refl w
        · exact le_trans hav (hmin w hw)
      · refine ⟨v, List.mem_cons_of_mem a hv, ?_⟩
        intro w hw
        rcases List.mem_cons.mp hw with rfl | hw
        · exact le_of_not_le hav
        · exact hmin w hw

/-- Every non-empty list of rationals has a first maximal element. -/
theorem exists_all_ge (l : List ℚ) (hl : l ≠ []) : ∃ v ∈ l, ∀ w ∈ l, w ≤ v := by
  induction l with
  | nil => exact absurd rfl hl
  | cons a t ih =>
    cases t with
    | nil => exact ⟨a, List.mem_singleton_self a, by simp⟩
    | cons b u =>
      obtain ⟨v, hv, hmax⟩ := ih (List.cons_ne_nil b u)
      by_cases hav : v ≤ a
      · refine ⟨a, List.mem_cons_self a _, ?_⟩
        intro w hw
        rcases List.mem_cons.mp hw with rfl | hw
        · exact le_refl w
        · exact le_trans (hmax w hw) hav
      · refine ⟨v, List.mem_cons_of_mem a hv, ?_⟩
        intro w hw
        rcases List.mem_cons.mp hw with rfl | hw
        · exact le_of_not_le hav
        · exact hmax w hw

/-- `listMinD` of a non-empty list is a member of it. -/
theorem listMinD_mem (l : List ℚ) (hl : l ≠ []) : listMinD l ∈ l := by
  unfold listMinD
  cases hfind : l.find? (fun v => l.all (fun w => decide (v ≤ w))) with
  | some v => exact List.mem_of_find?_eq_some hfind
  | none =>
    obtain ⟨v, hv, hmin⟩ := exists_all_le l hl
    have := List.find?_eq_none.mp hfind v hv
    simp only [List.all_eq_true, decide_eq_true_eq] at this
    exact absurd (fun w hw => hmin w hw) this

/-- Every member of a list is `≥` its `listMinD`. -/
theorem listMinD_le (l : List ℚ) (a : ℚ) (ha : a ∈ l) : listMinD l ≤ a := by
  unfold listMinD
  cases hfind : l.find? (fun v => l.all (fun w => decide (v ≤ w))) with
  | some v =>
    have hv := List.find?_some hfind
    simp only [List.all_eq_true, decide_eq_true_eq] at hv
    exact hv a ha
  | none =>
    obtain ⟨v, hv, hmin⟩ := exists_all_le l (List.ne_nil_of_mem ha)
    have := List.find?_eq_none.mp hfind v hv
    simp only [List.all_eq_true, decide_eq_true_eq] at this
    exact absurd (fun w hw => hmin w hw) this

/-- The left prominence run starts with the peak sample itself. -/
theorem leftRun_eq_cons (x : List ℚ) (p : Nat) (hp : p < x.length) :
    leftRun x p = x.getD p 0 ::
      ((x.take p).reverse).takeWhile (fun v => decide (v ≤ x.getD p 0)) := by
  unfold leftRun
  have h1 : x.take (p + 1) = x.take p ++ [x.getD p 0] := by
    rw [List.take_succ]
    simp [List.getElem?_eq_getElem hp, List.getD_eq_getElem?_getD]
  rw [h1, List.reverse_append]
  simp [List.takeWhile_cons]

/-- The right prominence run starts with the peak sample itself. -/
theorem rightRun_eq_cons (x : List ℚ) (p : Nat) (hp : p < x.length) :
    rightRun x p = x.getD p 0 ::
      (x.drop (p + 1)).takeWhile (fun v => decide (v ≤ x.getD p 0)) := by
  unfold rightRun
  rw [List.drop_eq_getElem_cons hp]
  have : x[p] = x.getD p 0 := by
    simp [List.getD_eq_getElem?_getD, List.getElem?_eq_getElem hp]
  rw [this, List.takeWhile_cons]
  simp

/-- Samples in the left run do not exceed the peak sample. -/
theorem leftRun_le (x : List ℚ) (p : Nat) (v : ℚ) (hv : v ∈ leftRun x p) :
    v ≤ x.getD p 0 := by
  have := List.mem_takeWhile_imp hv
  simpa using this

/-- Samples in the right run do not exceed the peak sample. -/
theorem rightRun_le (x : List ℚ) (p : Nat) (v : ℚ) (hv : v ∈ rightRun x p) :
    v ≤ x.getD p 0 := by
  have := List.mem_takeWhile_imp hv
  simpa using this

/-- Prominences are nonnegative: both scan minima start at the peak sample
and only decrease. -/
theorem prominenceOf_nonneg (x : List ℚ) (p : Nat) (hp : p < x.length) :
    0 ≤ prominenceOf x p := by
  have hln : leftRun x p ≠ [] := by rw [leftRun_eq_cons x p hp]; exact List.cons_ne_nil _ _
  have hrn : rightRun x p ≠ [] := by rw [rightRun_eq_cons x p hp]; exact List.cons_ne_nil _ _
  have hl : listMinD (leftRun x p) ≤ x.getD p 0 :=
    leftRun_le x p _ (listMinD_mem _ hln)
  have hr : listMinD (rightRun x p) ≤ x.getD p 0 :=
    rightRun_le x p _ (listMinD_mem _ hrn)
  have : max (leftScan x p).1 (rightScan x p).1 ≤ x.getD p 0 := by
    unfold leftScan rightScan
    exact max_le hl hr
  unfold prominenceOf
  linarith

/-- Every member of a list is `≤` its `listMaxD`. -/
theorem le_listMaxD (l : List ℚ) (a : ℚ) (ha : a ∈ l) : a ≤ listMaxD l := by
  unfold listMaxD
  cases hfind : l.find? (fun v => l.all (fun w => decide (w ≤ v))) with
  | some v =>
    have hv := List.find?_some hfind
    simp only [List.all_eq_true, decide_eq_true_eq] at hv
    exact hv a ha
  | none =>
    obtain ⟨v, hv, hmax⟩ := exists_all_ge l (List.ne_nil_of_mem ha)
    have := List.find?_eq_none.mp hfind v hv
    simp only [List.all_eq_true, decide_eq_true_eq] at this
    exact absurd (fun w hw => hmax w hw) this

/-- The plateau scan never moves backwards. -/
theorem plateauScan_ge (x : List ℚ) (imax : Nat) (v : ℚ) :
    ∀ fuel i, i ≤ plateauScan x imax v fuel i := by
  intro fuel
  induction fuel with
  | zero => intro i; simp [plateauScan]
  | succ n ih =>
    intro i
    unfold plateauScan
    split
    · exact le_trans (Nat.le_succ i) (ih (i + 1))
    · exact le_refl i

/-- The plateau scan never passes `imax` when started at or below it. -/
theorem plateauScan_le (x : List ℚ) (imax : Nat) (v : ℚ) :
    ∀ fuel i, i ≤ imax → plateauScan x imax v fuel i ≤ imax := by
  intro fuel
  induction fuel with
  | zero => intro i hi; simpa [plateauScan] using hi
  | succ n ih =>
    intro i hi
    unfold plateauScan
    split
    · next h => exact ih (i + 1) h.1
    · exact hi

/-- Indices reported by the local-maxima scan stay strictly below `imax`. -/
theorem localMaximaAux_lt (x : List ℚ) (imax : Nat) :
    ∀ fuel i q, q ∈ localMaximaAux x imax fuel i → q < imax := by
  intro fuel
  induction fuel with
  | zero => intro i q hq; simp [localMaximaAux] at hq
  | succ n ih =>
    intro i q hq
    unfold localMaximaAux at hq
    by_cases hi : i < imax
    · rw [if_pos hi] at hq
      by_cases hrise : x.getD (i - 1) 0 < x.getD i 0
      · rw [if_pos hrise] at hq
        by_cases hfall :
            x.getD (plateauScan x imax (x.getD i 0) x.length (i + 1)) 0 < x.getD i 0
        · rw [if_pos hfall] at hq
          rcases List.mem_cons.mp hq with rfl | hq
          · have h1 : i + 1 ≤ plateauScan x imax (x.getD i 0) x.length (i + 1) :=
              plateauScan_ge x imax _ x.length (i + 1)
            have h2 : plateauScan x imax (x.getD i 0) x.length (i + 1) ≤ imax :=
              plateauScan_le x imax _ x.length (i + 1) hi
            omega
          · exact ih _ _ hq
        · rw [if_neg hfall] at hq
          exact ih _ _ hq
      · rw [if_neg hrise] at hq
        exact ih _ _ hq
    · rw [if_neg hi] at hq
      simp at hq

/-- Local maxima are valid (interior) sample positions. -/
theorem localMaxima_lt_length (x : List ℚ) (q : Nat) (hq : q ∈ localMaxima x) :
    q < x.length := by
  have h := localMaximaAux_lt x (x.length - 1) x.length 1 q hq
  omega

/-- Comparison of nonnegative rationals is equivalent to comparison of
their squares. -/
theorem le_iff_sq_le (a b : ℚ) (ha : 0 ≤ a) (hb : 0 ≤ b) : a ≤ b ↔ a ^ 2 ≤ b ^ 2 := by
  constructor
  · intro h; nlinarith
  · intro h; nlinarith

/-- The default of `getLastD` is irrelevant once the position is in range
of the drop: the last element of `l.drop n` is the last element of `l`. -/
theorem getLastD_drop (l : List ℚ) (n : Nat) (h : n < l.length) :
    (l.drop n).getLastD 0 = l.getLastD 0 := by
  have hne : l ≠ [] := by
    intro hnil; rw [hnil] at h; simp at h
  have hsome : l.getLast?.isSome := List.getLast?_isSome.mpr hne
  obtain ⟨a, ha⟩ := Option.isSome_iff_exists.mp hsome
  obtain ⟨ys, rfl⟩ := List.getLast?_eq_some_iff.mp ha
  have hlen : n ≤ ys.length := by
    have := h
    simp only [List.length_append, List.length_cons, List.length_nil] at this
    omega
  rw [List.drop_append_of_le_length hlen, List.getLastD_concat, List.getLastD_concat]

/-- The last close is one of the handle samples `close[pr:]`. -/
theorem getLastD_mem_drop (l : List ℚ) (n : Nat) (h : n < l.length) :
    l.getLastD 0 ∈ l.drop n := by
  have hlen : (l.drop n).length = l.length - n := List.length_drop n l
  have hne : l.drop n ≠ [] := by
    intro hnil
    rw [hnil] at hlen
    simp at hlen
    omega
  rw [← getLastD_drop l n h]
  have hsome : (l.drop n).getLast?.isSome := List.getLast?_isSome.mpr hne
  obtain ⟨a, ha⟩ := Option.isSome_iff_exists.mp hsome
  rw [List.getLastD_eq_getLast?, ha]
  exact List.mem_of_getLast?_eq_some ha

/-- Instruments whose analysis yields `none` contribute nothing to the
collected batch: filtering them out of the universe leaves the collected
results unchanged. -/
theorem filterMap_erase_none (g : InstrumentItem → Option InstrumentResult)
    (items : List InstrumentItem) (it : InstrumentItem) (hnone : g it = none) :
    items.filterMap g = (items.filter (fun j => j ≠ it)).filterMap g := by
  induction items with
  | nil => rfl
  | cons j t ih =>
    by_cases hj : j = it
    · subst hj
      have hd : (decide (j ≠ j)) = false := by simp
      rw [List.filter_cons, hd, if_neg Bool.false_ne_true]
      simp only [List.filterMap_cons, hnone]
      exact ih
    · have hd : (decide (j ≠ it)) = true := by simp [hj]
      rw [List.filter_cons, hd, if_pos rfl]
      simp only [List.filterMap_cons]
      cases g j with
      | none => exact ih
      | some r => rw [ih]

/-- The squared prominence cut of `scipyFindPeaksSq` agrees with the
literal cut `std · ratio ≤ prominence` of `scipyFindPeaks` whenever the
threshold factors are nonnegative. -/
theorem scipyFindPeaksSq_eq_withStd (x : List ℚ) (s r w : ℚ) (hs : 0 ≤ s) (hr : 0 ≤ r) :
    scipyFindPeaksSq x (s ^ 2 * r ^ 2) w = scipyFindPeaks x (s * r) w := by
  unfold scipyFindPeaksSq scipyFindPeaks
  congr 1
  apply List.filter_congr
  intro p hp
  have hprom : 0 ≤ prominenceOf x p :=
    prominenceOf_nonneg x p (localMaxima_lt_length x p hp)
  apply decide_eq_decide.mpr
  have hsr : 0 ≤ s * r := mul_nonneg hs hr
  have := le_iff_sq_le (s * r) (prominenceOf x p) hsr hprom
  rw [mul_pow] at this
  exact this.symm

/-!
The claims.
-/

/-- C10: for every requested moving-average window other than 20, 50 and
200, `check_ma_conditions` sets the `above_ma{p}` outcome to `False`
unconditionally — `ma_cols.get(p)` is `None` for such windows, so the
average is never computed and the flag falls into the `else` branch. -/
theorem C10_above_ma_unknown_window_false (df : AnalyzeFrame) (p : Nat)
    (hp : ¬ (p = 20 ∨ p = 50 ∨ p = 200)) : above_ma df p = false := by
  push_neg at hp
  unfold above_ma ma_cols_get
  rw [if_neg hp.1, if_neg hp.2.1, if_neg hp.2.2]

/-- Witness for C10 at the concrete window 30 on a frame whose close sits
above every stored average, showing the flag is still `False`. -/
theorem C10_witness :
    (¬ ((30 : Nat) = 20 ∨ (30 : Nat) = 50 ∨ (30 : Nat) = 200)) ∧
    above_ma frameW 30 = false :=
  ⟨by decide, C10_above_ma_unknown_window_false frameW 30 (by decide)⟩

/-- C4 (amended): a missing or unparseable listing file does not produce
an empty-universe error — `load_listing` falls back to the built-in
one-item default universe, which the batch then analyzes; the
`LISTING_DATA_EMPTY` error occurs exactly when the listing file parses to
an empty list. -/
theorem C4_listing_fallback (src : ListingSource) :
    load_listing .missing = [default_listing_item] ∧
    load_listing .unparseable = [default_listing_item] ∧
    (run_analysis_universe src = .error .listingDataEmpty ↔ src = .parsed []) := by
  refine ⟨rfl, rfl, ?_⟩
  cases src with
  | missing =>
    constructor
    · intro h
      simp [run_analysis_universe, load_listing] at h
    · intro h
      simp at h
  | unparseable =>
    constructor
    · intro h
      simp [run_analysis_universe, load_listing] at h
    · intro h
      simp at h
  | parsed l =>
    constructor
    · intro h
      by_cases hl : l.length = 0
      · rw [List.length_eq_zero.mp hl]
      · simp [run_analysis_universe, load_listing, hl] at h
    · intro h
      injection h with h2
      subst h2
      simp [run_analysis_universe, load_listing]

/-- Counterexample to C4 as stated: with the listing file missing, the
batch run does not degrade to an empty-universe error; it proceeds with
the one-instrument fallback universe. -/
theorem C4_counterexample :
    run_analysis_universe .missing = .ok [default_listing_item] ∧
    (load_listing .missing).length = 1 :=
  ⟨rfl, rfl⟩

/-- C2 (amended): with at least 14 but fewer than 200 bars,
`calculate_advanced_features` returns no rows at all: the `dropna` subset
includes the 200-bar average, which is NaN on every row of such a frame,
so every row is dropped; moving-average windows are never shrunk. -/
theorem C2_short_history_rows_empty (n : Nat) (h14 : 14 ≤ n) (h200 : n < 200) :
    calculate_advanced_features_rows n = [] := by
  unfold calculate_advanced_features_rows
  apply List.filter_eq_nil_iff.mpr
  intro i hi
  have hin : i < n := List.mem_range.mp hi
  intro h
  simp only [Bool.and_eq_true, decide_eq_true_eq] at h
  obtain ⟨⟨⟨⟨h1, h2⟩, h3⟩, h4⟩, h5⟩ := h
  unfold smaFirstValid at h4
  omega

/-- Counterexample to C2 as stated: at 100 bars the code's feature frame
is empty, while a derivation that dropped only rows missing RSI, MACD or
the 20-bar average would keep row 99. -/
theorem C2_counterexample :
    calculate_advanced_features_rows 100 = [] ∧ 99 ∈ deriveFeatures_rows_spec 100 :=
  ⟨by decide, by decide⟩

/-- Witness for C2 at the concrete bar count 100. -/
theorem C2_witness :
    14 ≤ 100 ∧ 100 < 200 ∧ calculate_advanced_features_rows 100 = [] :=
  ⟨by decide, by decide, C2_short_history_rows_empty 100 (by decide) (by decide)⟩

/-- C7: the regime classifier labels every row −1 when the usable history
is shorter than 200 rows or has fewer distinct feature vectors than the
cluster count; otherwise (with present feature columns and a succeeding
k-means returning per-sample labels below `k`, as scikit-learn
guarantees) every row receives a label in `[0, k)`. -/
theorem C7_regime_labels (fp : List (List ℚ) → Except Unit (List Nat))
    (hasCols : Bool) (rows : List (List ℚ)) (k : Nat) :
    (rows.length < regime_min_data_length →
      add_market_regime_clustering fp hasCols rows k = rows.map (fun _ => -1)) ∧
    (rows.dedup.length < k →
      add_market_regime_clustering fp hasCols rows k = rows.map (fun _ => -1)) ∧
    (∀ ls, regime_min_data_length ≤ rows.length → hasCols = true →
      k ≤ rows.dedup.length → fp rows = .ok ls → (∀ l ∈ ls, l < k) →
      add_market_regime_clustering fp hasCols rows k = ls.map (fun (l : Nat) => (l : ℤ)) ∧
      ∀ v ∈ add_market_regime_clustering fp hasCols rows k, 0 ≤ v ∧ v < (k : ℤ)) := by
  refine ⟨?_, ?_, ?_⟩
  · intro h
    unfold add_market_regime_clustering
    rw [if_pos (Or.inl h)]
  · intro h
    unfold add_market_regime_clustering
    by_cases h1 : rows.length < regime_min_data_length ∨ hasCols = false
    · rw [if_pos h1]
    · rw [if_neg h1, if_pos h]
  · intro ls hlen hcols hk hfp hlab
    have h1 : ¬ (rows.length < regime_min_data_length ∨ hasCols = false) := by
      push_neg
      exact ⟨by omega, by simp [hcols]⟩
    have heq : add_market_regime_clustering fp hasCols rows k = ls.map (fun (l : Nat) => (l : ℤ)) := by
      unfold add_market_regime_clustering
      rw [if_neg h1, if_neg (by omega), hfp]
    refine ⟨heq, ?_⟩
    intro v hv
    rw [heq] at hv
    obtain ⟨l, hl, rfl⟩ := List.mem_map.mp hv
    exact ⟨Int.ofNat_nonneg l, by exact_mod_cast hlab l hl⟩

/-- Witness for C7: 200 pairwise-distinct rows, four clusters, and a
clustering collaborator labelling everything 0. -/
theorem C7_witness :
    regime_min_data_length ≤ rows200.length ∧ 4 ≤ rows200.dedup.length ∧
    add_market_regime_clustering fitPredictZero true rows200 4 =
      (rows200.map (fun _ => 0)).map (fun (l : Nat) => (l : ℤ)) := by
  have hinj : Function.Injective (fun i : Nat => ([(i : ℚ)] : List ℚ)) := by
    intro a b hab
    simpa using hab
  have hnodup : rows200.Nodup := List.Nodup.map hinj (List.nodup_range 200)
  have hded : rows200.dedup = rows200 := List.Nodup.dedup hnodup
  have hlen : rows200.length = 200 := by
    unfold rows200
    rw [List.length_map, List.length_range]
  have h14 : (4 : Nat) ≤ rows200.dedup.length := by rw [hded, hlen]; decide
  have hmin : regime_min_data_length ≤ rows200.length := by
    rw [hlen]; decide
  refine ⟨hmin, h14, ?_⟩
  exact ((C7_regime_labels fitPredictZero true rows200 4).2.2 (rows200.map (fun _ => 0))
    hmin rfl h14 rfl (by
      intro l hl
      simp only [List.mem_map] at hl
      obtain ⟨_, _, h⟩ := hl
      omega)).1

/-- C6: the ranking phase sorts the collected results by ranking score
descending, truncates with `results[:top_n]` only when `top_n > 0`
(`top_n ≤ 0` keeps everything), and strips the internal score, so the
final length is `min(N_matching, top_n)` for positive `top_n`. -/
theorem C6_ranking (results : List InstrumentResult) (top_n : ℤ) :
    (0 < top_n →
      (run_analysis_rank results top_n).length = min results.length top_n.toNat) ∧
    (top_n ≤ 0 → (run_analysis_rank results top_n).length = results.length) ∧
    List.Sorted (fun a b => b.sort_score ≤ a.sort_score) (sortByScoreDesc results) := by
  refine ⟨?_, ?_, ?_⟩
  · intro h
    simp only [run_analysis_rank]
    rw [if_pos h]
    simp [sortByScoreDesc, List.length_insertionSort, Nat.min_comm]
  · intro h
    simp only [run_analysis_rank]
    rw [if_neg (by omega)]
    simp [sortByScoreDesc, List.length_insertionSort]
  · exact List.sorted_insertionSort _ results

/-- Witness for C6: three collected results and `top_n = 2` give a final
length of `min 3 2`. -/
theorem C6_witness :
    (0 : ℤ) < 2 ∧
    (run_analysis_rank [resultScore1, resultScore3, resultScore2] 2).length =
      min [resultScore1, resultScore3, resultScore2].length (2 : ℤ).toNat :=
  ⟨by decide, (C6_ranking [resultScore1, resultScore3, resultScore2] 2).1 (by decide)⟩

/-- C5: an exception raised by any phase inside the `try` block of
`analyze_symbol` (loading, feature derivation, clustering, condition
analysis) is converted to a `None` result and never escapes; the batch
collection is therefore unaffected by the failing instrument and equals
the collection over the remaining instruments. -/
theorem C5_exception_contained (env : InstrumentItem → SymbolEnv)
    (items : List InstrumentItem) (periods : List Nat) (f : FilterKind)
    (it : InstrumentItem) (e : PyExn)
    (herr : analyze_symbol_try (env it) it periods f = .error e) :
    analyze_symbol (env it) it periods f = none ∧
    run_analysis_collect env items periods f =
      run_analysis_collect env (items.filter (fun j => j ≠ it)) periods f := by
  have hnone : analyze_symbol (env it) it periods f = none := by
    unfold analyze_symbol
    by_cases hpe : (env it).pathExists = false
    · rw [if_pos hpe]
    · rw [if_neg hpe, herr]
  exact ⟨hnone,
    filterMap_erase_none (fun j => analyze_symbol (env j) j periods f) items it hnone⟩

/-- Witness for C5: a parquet load that raises, one instrument in the
universe. -/
theorem C5_witness :
    analyze_symbol_try envLoadFails itemW [] .noFilter =
      .error ⟨"read_parquet failed"⟩ ∧
    analyze_symbol envLoadFails itemW [] .noFilter = none ∧
    run_analysis_collect (fun _ => envLoadFails) [itemW] [] .noFilter =
      run_analysis_collect (fun _ => envLoadFails)
        ([itemW].filter (fun j => j ≠ itemW)) [] .noFilter := by
  have herr : analyze_symbol_try envLoadFails itemW [] .noFilter =
      .error ⟨"read_parquet failed"⟩ := rfl
  have h := C5_exception_contained (fun _ => envLoadFails) [itemW] [] .noFilter itemW
    ⟨"read_parquet failed"⟩ herr
  exact ⟨herr, h.1, h.2⟩

/-- C8: for each of the three pattern detectors, whenever the returned
status is the string `'None'`, the returned neckline price is defined —
every `'None'` branch of the source returns the computed neckline for
chart visualization.  (When a precondition fails the detectors return a
null status together with a null neckline; the status enum value `'None'`
of the data model always comes with a price.) -/
theorem C8_neckline_defined (c1 c2 c3 : List ℚ) (t1 t2 pk tr : List Nat) :
    ((find_double_bottom c1 t1).status = some .nonePat →
      (find_double_bottom c1 t1).necklinePrice ≠ none) ∧
    ((find_triple_bottom c2 t2).status = some .nonePat →
      (find_triple_bottom c2 t2).necklinePrice ≠ none) ∧
    ((find_cup_and_handle c3 pk tr).status = some .nonePat →
      (find_cup_and_handle c3 pk tr).necklinePrice ≠ none) := by
  refine ⟨?_, ?_, ?_⟩
  · simp only [find_double_bottom]
    split_ifs <;> simp [noVerdict]
  · simp only [find_triple_bottom]
    split_ifs <;> simp [noVerdict]
  · simp only [find_cup_and_handle]
    split_ifs <;> simp [noVerdict]

/-- Witness for C8: concrete series landing in the `'None'` branch of
each detector, with the neckline price still returned. -/
theorem C8_witness :
    (find_double_bottom closeDBNone [0, 40]).status = some .nonePat ∧
    (find_double_bottom closeDBNone [0, 40]).necklinePrice ≠ none ∧
    (find_triple_bottom closeTBNone [0, 40, 80]).status = some .nonePat ∧
    (find_triple_bottom closeTBNone [0, 40, 80]).necklinePrice ≠ none ∧
    (find_cup_and_handle closeCHNone [0, 1] []).status = some .nonePat ∧
    (find_cup_and_handle closeCHNone [0, 1] []).necklinePrice ≠ none := by
  have h := C8_neckline_defined closeDBNone closeTBNone closeCHNone [0, 40] [0, 40, 80]
    [0, 1] []
  refine ⟨by decide, h.1 (by decide), by decide, h.2.1 (by decide), by decide,
    h.2.2 (by decide)⟩

/-- C9: beyond the count, spacing and tolerance conditions, the double-
and triple-bottom detectors require the neckline to be at least 10% above
the lowest trough price (`min_retrace = 0.1`); when the neckline falls
short of `1.1 ×` the lowest trough price they report no pattern at all,
returning `(False, None, None, None)` with no neckline price. -/
theorem C9_min_retrace_guard (close : List ℚ) (troughs : List Nat) :
    (∀ idx1 idx2 : Nat,
      2 ≤ (recentIdxs close.length troughs).length →
      idx2 = (recentIdxs close.length troughs).getLastD 0 →
      idx1 = (recentIdxs close.length troughs).getD
        ((recentIdxs close.length troughs).length - 2) 0 →
      db_min_duration ≤ (idx2 : ℤ) - (idx1 : ℤ) →
      0 < min (close.getD idx1 0) (close.getD idx2 0) →
      (max (close.getD idx1 0) (close.getD idx2 0) -
          min (close.getD idx1 0) (close.getD idx2 0)) /
        min (close.getD idx1 0) (close.getD idx2 0) < db_tolerance →
      listMaxD (closeSlice close idx1 idx2) <
        min (close.getD idx1 0) (close.getD idx2 0) * (11 / 10) →
      find_double_bottom close troughs = noVerdict) ∧
    (∀ idx1 idx2 idx3 : Nat,
      3 ≤ (recentIdxs close.length troughs).length →
      idx3 = (recentIdxs close.length troughs).getLastD 0 →
      idx2 = (recentIdxs close.length troughs).getD
        ((recentIdxs close.length troughs).length - 2) 0 →
      idx1 = (recentIdxs close.length troughs).getD
        ((recentIdxs close.length troughs).length - 3) 0 →
      tb_min_duration_total ≤ (idx3 : ℤ) - (idx1 : ℤ) →
      0 < min (close.getD idx1 0) (min (close.getD idx2 0) (close.getD idx3 0)) →
      (max (close.getD idx1 0) (max (close.getD idx2 0) (close.getD idx3 0)) -
          min (close.getD idx1 0) (min (close.getD idx2 0) (close.getD idx3 0))) /
        min (close.getD idx1 0) (min (close.getD idx2 0) (close.getD idx3 0)) <
        db_tolerance →
      max (listMaxD (closeSlice close idx1 idx2)) (listMaxD (closeSlice close idx2 idx3)) <
        min (close.getD idx1 0) (min (close.getD idx2 0) (close.getD idx3 0)) * (11 / 10) →
      find_triple_bottom close troughs = noVerdict) := by
  constructor
  · intro idx1 idx2 h2 hidx2 hidx1 hdur hpos htol hretr
    subst hidx1 hidx2
    simp only [find_double_bottom]
    rw [if_neg (by omega), if_neg (not_lt.mpr hdur), if_neg (not_not_intro htol)]
    have h10 : db_min_retrace = 1 / 10 := rfl
    rw [if_pos ((div_lt_iff₀ hpos).mpr (by rw [h10]; linarith))]
  · intro idx1 idx2 idx3 h3 hidx3 hidx2 hidx1 hdur hpos htol hretr
    subst hidx1 hidx2 hidx3
    simp only [find_triple_bottom]
    rw [if_neg (by omega), if_neg (not_lt.mpr hdur), if_neg (not_not_intro htol)]
    have h10 : db_min_retrace = 1 / 10 := rfl
    rw [if_pos ((div_lt_iff₀ hpos).mpr (by rw [h10]; linarith))]

/-- Witness for C9: equal troughs with an interim high of only 5% above
them; both detectors return the all-`None` tuple. -/
theorem C9_witness :
    2 ≤ (recentIdxs closeDBLowRetrace.length [0, 40]).length ∧
    listMaxD (closeSlice closeDBLowRetrace 0 40) <
      min (closeDBLowRetrace.getD 0 0) (closeDBLowRetrace.getD 40 0) * (11 / 10) ∧
    find_double_bottom closeDBLowRetrace [0, 40] = noVerdict ∧
    find_triple_bottom closeTBLowRetrace [0, 40, 80] = noVerdict := by
  refine ⟨by decide, by decide, ?_, ?_⟩
  · exact (C9_min_retrace_guard closeDBLowRetrace [0, 40]).1 0 40 (by decide) (by decide)
      (by decide) (by decide) (by decide) (by decide) (by decide)
  · exact (C9_min_retrace_guard closeTBLowRetrace [0, 40, 80]).2 0 40 80 (by decide)
      (by decide) (by decide) (by decide) (by decide) (by decide) (by decide) (by decide)

/-- C1 (amended): the cup-and-handle detector requires at least TWO recent
peaks (not one); given them and a valid most-recent peak index, the
`Breakout` status is unreachable — the handle window includes the current
bar, so a close above the peak falsifies handle-forming — and the status
is `Potential` exactly when the handle is forming (its maximum close not
exceeding the peak price and the close above 70% of the peak price),
`'None'` otherwise.  With fewer than two recent peaks it returns the
all-`None` tuple. -/
theorem C1_cup_and_handle (close : List ℚ) (peaks troughs : List Nat) :
    ((recentIdxs close.length peaks).length < 2 →
      find_cup_and_handle close peaks troughs = noVerdict) ∧
    (2 ≤ (recentIdxs close.length peaks).length →
      (recentIdxs close.length peaks).getLastD 0 < close.length →
      (find_cup_and_handle close peaks troughs).status ≠ some .breakout ∧
      ((find_cup_and_handle close peaks troughs).status = some .potential ↔
        (listMaxD (close.drop ((recentIdxs close.length peaks).getLastD 0)) ≤
            close.getD ((recentIdxs close.length peaks).getLastD 0) 0 ∧
          close.getD ((recentIdxs close.length peaks).getLastD 0) 0 *
              (1 - ch_handle_drop) < close.getLastD 0)) ∧
      ((find_cup_and_handle close peaks troughs).status = some .nonePat ↔
        ¬ (listMaxD (close.drop ((recentIdxs close.length peaks).getLastD 0)) ≤
            close.getD ((recentIdxs close.length peaks).getLastD 0) 0 ∧
          close.getD ((recentIdxs close.length peaks).getLastD 0) 0 *
              (1 - ch_handle_drop) < close.getLastD 0))) := by
  constructor
  · intro h
    simp only [find_cup_and_handle]
    rw [if_pos h]
  · intro h2 hpr
    have hcur : close.getLastD 0 ≤
        listMaxD (close.drop ((recentIdxs close.length peaks).getLastD 0)) :=
      le_listMaxD _ _ (getLastD_mem_drop close _ hpr)
    have hnb : ¬ ((listMaxD (close.drop ((recentIdxs close.length peaks).getLastD 0)) ≤
          close.getD ((recentIdxs close.length peaks).getLastD 0) 0 ∧
        close.getD ((recentIdxs close.length peaks).getLastD 0) 0 *
            (1 - ch_handle_drop) < close.getLastD 0) ∧
        close.getD ((recentIdxs close.length peaks).getLastD 0) 0 < close.getLastD 0) := by
      rintro ⟨⟨hmax, _⟩, hlt⟩
      linarith
    simp only [find_cup_and_handle]
    rw [if_neg (by omega), if_neg hnb]
    by_cases hform :
        (listMaxD (close.drop ((recentIdxs close.length peaks).getLastD 0)) ≤
          close.getD ((recentIdxs close.length peaks).getLastD 0) 0 ∧
        close.getD ((recentIdxs close.length peaks).getLastD 0) 0 *
            (1 - ch_handle_drop) < close.getLastD 0)
    · rw [if_pos ⟨hform, le_trans hcur hform.1⟩]
      refine ⟨by simp, ?_, ?_⟩
      · exact ⟨fun _ => hform, fun _ => rfl⟩
      · exact iff_of_false (by simp) (not_not_intro hform)
    · rw [if_neg (fun hc => hform hc.1)]
      refine ⟨by simp, ?_, ?_⟩
      · exact iff_of_false (by simp) hform
      · exact iff_of_true rfl hform

/-- Counterexample to C1 as stated: with exactly one recent peak (the
claim's stated precondition) the detector returns the all-`None` tuple
rather than a status, and with two recent peaks and the current close
above the most recent peak's price the status is `'None'`, not
`Breakout`. -/
theorem C1_counterexample :
    1 ≤ (recentIdxs closeOnePeak.length [1]).length ∧
    find_cup_and_handle closeOnePeak [1] [] = noVerdict ∧
    (recentIdxs closeAbovePeak.length [1, 3]).getLastD 0 = 3 ∧
    closeAbovePeak.getD 3 0 < closeAbovePeak.getLastD 0 ∧
    (find_cup_and_handle closeAbovePeak [1, 3] []).status = some .nonePat :=
  ⟨by decide, by decide, by decide, by decide, by decide⟩

/-- Witness for C1 on the two-peak series whose close exceeds the peak:
the detector's status is neither `Breakout` nor `Potential`. -/
theorem C1_witness :
    2 ≤ (recentIdxs closeAbovePeak.length [1, 3]).length ∧
    (recentIdxs closeAbovePeak.length [1, 3]).getLastD 0 < closeAbovePeak.length ∧
    (find_cup_and_handle closeAbovePeak [1, 3] []).status ≠ some .breakout ∧
    ¬ (find_cup_and_handle closeAbovePeak [1, 3] []).status = some .potential := by
  have h := (C1_cup_and_handle closeAbovePeak [1, 3] []).2 (by decide) (by decide)
  refine ⟨by decide, by decide, h.1, ?_⟩
  rw [h.2.1]
  decide

/-- C3 (amended): over the most recent 250-observation window the extrema
detector sets its prominence threshold to the window's closing-price
standard deviation times the ratio 0.005 alone — there is no mean-price
floor — and detects peaks as local maxima of the closing curve and
troughs as local maxima of its negation at that prominence with a minimum
width of 3 bars, translating indices back into full-series space: for any
`s ≥ 0` with `s² = sampleVar window` (i.e. `s` the standard deviation),
the executable detector coincides with the literal `std × ratio` form. -/
theorem C3_threshold_std_only (close : List ℚ) (s : ℚ) (hs : 0 ≤ s)
    (hvar : s ^ 2 = sampleVar (close.drop (close.length - 250))) :
    find_peaks_and_troughs close = find_peaks_and_troughs_withStd close s := by
  simp only [find_peaks_and_troughs, find_peaks_and_troughs_withStd]
  by_cases hemp : (close.drop (close.length - 250)).isEmpty = true
  · rw [if_pos hemp, if_pos hemp]
  · rw [if_neg hemp, if_neg hemp]
    have hr : (0 : ℚ) ≤ prominence_scale := by norm_num [prominence_scale]
    have h1 : sampleVar (close.drop (close.length - 250)) * prominence_scale ^ 2 =
        s ^ 2 * prominence_scale ^ 2 := by rw [hvar]
    rw [h1, scipyFindPeaksSq_eq_withStd _ s prominence_scale _ hs hr,
      scipyFindPeaksSq_eq_withStd _ s prominence_scale _ hs hr]

/-- Witness for C3 on a 250-bar window whose sample variance is exactly 4,
so its standard deviation is the rational 2. -/
theorem C3_witness :
    (0 : ℚ) ≤ 2 ∧
    (2 : ℚ) ^ 2 = sampleVar (closeRationalStd.drop (closeRationalStd.length - 250)) ∧
    find_peaks_and_troughs closeRationalStd =
      find_peaks_and_troughs_withStd closeRationalStd 2 := by
  have hv : (2 : ℚ) ^ 2 =
      sampleVar (closeRationalStd.drop (closeRationalStd.length - 250)) := by decide
  exact ⟨by decide, hv, C3_threshold_std_only closeRationalStd 2 (by decide) hv⟩

/-- Counterexample to C3 as stated: on a 250-bar near-flat window around
price 1000 with one bump of prominence 4, the source detector (threshold
`std × 0.005 ≈ 0.002`) reports the bump as a peak, while the claimed
threshold `max(std × ratio, mean × 0.005) ≈ 5.0` would reject it. -/
theorem C3_counterexample :
    find_peaks_and_troughs closeFlatBump = ([124], []) ∧
    find_peaks_and_troughs_specThreshold closeFlatBump = ([], []) :=
  ⟨by decide, by decide⟩

/-- Witness for C4: the amended statement instantiated at a missing
listing file and at an empty parsed listing. -/
theorem C4_witness :
    load_listing .missing = [default_listing_item] ∧
    (run_analysis_universe (.parsed []) = .error .listingDataEmpty ↔
      (ListingSource.parsed [] : ListingSource) = .parsed []) :=
  ⟨(C4_listing_fallback (.parsed [])).1, (C4_listing_fallback (.parsed [])).2.2⟩
